import Mathlib

/-!
Verification development for the AI document insight backend
(`backend-fastapi.py`): a shallow embedding of the document-processing
pipeline (upload, validate, AI-or-fallback analysis, persist, retrieve)
and proofs of its specified properties.

External collaborators (the NLTK tokenizer `word_tokenize`, the English
stopword list, the PyPDF2 page parser, the Gemini client, and the `json`
string codec) are modelled as parameters: the embedding quantifies over
them, and theorems state whatever assumptions they need explicitly.
-/

namespace DocInsight

/-- The `DocumentInsight` pydantic model: the structured analysis result.
`word_frequency` is an ordered token-to-count mapping (Python dict,
insertion ordered), present only on the fallback path. -/
structure DocumentInsight where
  summary : String
  key_skills : List String
  experience_level : String
  education : String
  highlights : List String
  word_frequency : Option (List (String × Nat))
  processing_method : String
deriving Repr, DecidableEq

/-- JSON values, as produced/consumed by `json.dumps`/`json.loads`
(numbers restricted to integers, which is all the insight shape uses). -/
inductive Json where
  | null : Json
  | str : String → Json
  | num : Int → Json
  | bool : Bool → Json
  | arr : List Json → Json
  | obj : List (String × Json) → Json

/-- One row of the `documents` table (`DocumentRecord` in the source).
The `insights` column is a JSON string; we model it as the JSON value it
encodes (`json.dumps`/`json.loads` being the external string codec). -/
structure DocumentRecord where
  id : String
  original_filename : String
  stored_filename : String
  upload_date : Nat
  file_size : Nat
  content_type : String
  insights : Option Json
  processing_status : String
  error_message : Option String

/-- The `UploadResponse` pydantic model returned by `upload_resume`. -/
structure UploadResponse where
  message : String
  document_id : String
  filename : String
  processing_status : String
deriving Repr, DecidableEq

/-- The `DocumentResponse` pydantic model returned by `get_insights`. -/
structure DocumentResponse where
  id : String
  filename : String
  upload_date : Nat
  file_size : Nat
  insights : Option DocumentInsight
  processing_status : String
  error_message : Option String
deriving Repr, DecidableEq

/-- Model of `fastapi.HTTPException`, as raised by the endpoints. -/
structure HTTPException where
  status_code : Nat
  detail : String
deriving Repr, DecidableEq

/-! ## Fallback word-frequency analysis (`get_word_frequency_fallback`) -/

/-- Python `str.isalnum`: non-empty and every character alphanumeric
(modelled over the ASCII range). -/
def pyIsAlnum (w : String) : Bool :=
  !w.isEmpty && w.toList.all Char.isAlphanum

/-- The list comprehension in `get_word_frequency_fallback`:
tokenize the lower-cased text and keep tokens that are alphanumeric,
longer than 2 characters, and not stopwords. `tok` is the external
`word_tokenize`; `stopWords` the external English stopword list. -/
def filteredWords (tok : String → List String) (stopWords : List String)
    (text : String) : List String :=
  (tok text.toLower).filter
    (fun w => pyIsAlnum w && decide (2 < w.length) && !stopWords.contains w)

/-- First occurrence of each distinct element, in encounter order:
the key order of a Python dict / `Counter` built by left-to-right
insertion. `seen` accumulates keys already emitted. -/
def dedupFirstAux (seen : List String) : List String → List String
  | [] => []
  | w :: ws =>
    if w ∈ seen then dedupFirstAux seen ws
    else w :: dedupFirstAux (w :: seen) ws

def dedupFirst (l : List String) : List String :=
  dedupFirstAux [] l

/-- The counter `collections.Counter(ws)` as an insertion-ordered association list:
distinct elements in first-encounter order, each with its total count. -/
def counterItems (ws : List String) : List (String × Nat) :=
  (dedupFirst ws).map (fun w => (w, ws.count w))

/-- Stable insertion (descending by `key`): the new element goes before
the first element whose key is ≤ its own, so that, elements being
inserted in original order from the right, equal keys keep their
original relative order. -/
def insertDescBy {α : Type} (key : α → Nat) (p : α) : List α → List α
  | [] => [p]
  | q :: qs =>
    if key q ≤ key p then p :: q :: qs
    else q :: insertDescBy key p qs

/-- Stable sort, descending by `key`: the order produced by Python's
stable `sorted(..., reverse=True)` (and by `heapq.nlargest`, which is
documented as equivalent to it). -/
def sortDescBy {α : Type} (key : α → Nat) : List α → List α
  | [] => []
  | p :: ps => insertDescBy key p (sortDescBy key ps)

/-- The method `Counter.most_common(n)`: the `n` highest-count items, highest first,
ties kept in insertion order. -/
def most_common (n : Nat) (items : List (String × Nat)) : List (String × Nat) :=
  (sortDescBy (fun p => p.2) items).take n

/-- The function `get_word_frequency_fallback(text, top_n)`: lower-case, tokenize,
filter, count, and return the `top_n` most common tokens as an ordered
mapping. (The source wraps this in a `try/except` returning `{}`; the
model is total, so no exception path arises.) -/
def get_word_frequency_fallback (tok : String → List String)
    (stopWords : List String) (text : String) (top_n : Nat) :
    List (String × Nat) :=
  most_common top_n (counterItems (filteredWords tok stopWords text))

/-- The highlight format string used by `analyze_document_fallback`. -/
def frequentTermHighlight (p : String × Nat) : String :=
  "Frequent term: " ++ p.1 ++ " (" ++ toString p.2 ++ " occurrences)"

/-- The function `analyze_document_fallback(text)`: word-frequency based insight with
`processing_method = "fallback"`. (`list(word_freq.keys()) if word_freq
else []` equals the key list in both cases.) -/
def analyze_document_fallback (tok : String → List String)
    (stopWords : List String) (text : String) : DocumentInsight :=
  let word_freq := get_word_frequency_fallback tok stopWords text 5
  { summary := "AI service temporarily unavailable. Document processed using fallback analysis."
    key_skills := word_freq.map (fun p => p.1)
    experience_level := "Unable to determine"
    education := "Unable to determine"
    highlights := (word_freq.map frequentTermHighlight).take 3
    word_frequency := some word_freq
    processing_method := "fallback" }

/-! ## Insight serialization (`json.dumps(insights.dict())` and
`DocumentInsight(**json.loads(...))`) -/

/-- Serialization `insights.dict()` followed by `json.dumps`: the JSON value stored in
the `insights` column. -/
def insightToJson (i : DocumentInsight) : Json :=
  .obj [("summary", .str i.summary),
        ("key_skills", .arr (i.key_skills.map Json.str)),
        ("experience_level", .str i.experience_level),
        ("education", .str i.education),
        ("highlights", .arr (i.highlights.map Json.str)),
        ("word_frequency",
          match i.word_frequency with
          | none => .null
          | some m => .obj (m.map (fun p => (p.1, Json.num (p.2 : Int))))),
        ("processing_method", .str i.processing_method)]

/-- Keyword lookup in a decoded JSON object (Python dict access). -/
def jlookup (fields : List (String × Json)) (k : String) : Option Json :=
  (fields.find? (fun p => p.1 == k)).map (fun p => p.2)

/-- Decoding a `List[str]` pydantic field from a JSON array. -/
def decodeStrList : List Json → Option (List String)
  | [] => some []
  | .str s :: rest => (decodeStrList rest).map (fun l => s :: l)
  | _ => none

/-- Decoding a `Dict[str, int]` pydantic field from a JSON object. -/
def decodeFreq : List (String × Json) → Option (List (String × Nat))
  | [] => some []
  | (k, .num n) :: rest =>
    if n < 0 then none
    else (decodeFreq rest).map (fun l => (k, n.toNat) :: l)
  | _ => none

/-- Construction `DocumentInsight(**insights_data)`: pydantic validation of a decoded
JSON value. Required fields (`summary`, `processing_method`) fail when
missing; optional fields take their declared defaults when missing; any
value of the wrong shape fails validation (`none`). -/
def insightFromJson (j : Json) : Option DocumentInsight :=
  match j with
  | .obj fields => do
    let summary ←
      match jlookup fields "summary" with
      | some (.str s) => some s
      | _ => none
    let key_skills ←
      match jlookup fields "key_skills" with
      | some (.arr xs) => decodeStrList xs
      | none => some []
      | _ => none
    let experience_level ←
      match jlookup fields "experience_level" with
      | some (.str s) => some s
      | none => some ""
      | _ => none
    let education ←
      match jlookup fields "education" with
      | some (.str s) => some s
      | none => some ""
      | _ => none
    let highlights ←
      match jlookup fields "highlights" with
      | some (.arr xs) => decodeStrList xs
      | none => some []
      | _ => none
    let word_frequency ←
      match jlookup fields "word_frequency" with
      | some .null => some none
      | some (.obj m) => (decodeFreq m).map some
      | none => some none
      | _ => none
    let processing_method ←
      match jlookup fields "processing_method" with
      | some (.str s) => some s
      | _ => none
    some ⟨summary, key_skills, experience_level, education, highlights,
          word_frequency, processing_method⟩
  | _ => none

/-! ## AI analysis (`analyze_document_with_gemini`) -/

/-- The `summary` built when JSON decoding of the AI response fails:
the raw response text, truncated to 500 characters with an ellipsis
when longer than 500. -/
def truncatedSummary (responseText : String) : String :=
  if 500 < responseText.length then responseText.take 500 ++ "..."
  else responseText

/-- The code-fence stripping step: `response_text.strip()`, then, when
the marker occurs, `split("```json")[1].split("```")[0]`, else the
stripped text itself. (`split` never returns an empty list, and returns
at least two pieces exactly when the marker occurs.) -/
def geminiJsonPart (responseText : String) : String :=
  let response_text := responseText.trim
  match response_text.splitOn "```json" with
  | _ :: second :: _ =>
    match second.splitOn "```" with
    | first :: _ => first
    | [] => ""
  | _ => response_text

/-- Building the insight from a successfully decoded AI response:
`parsed_response.get(key, default)` fed to the `DocumentInsight`
constructor. A decoded non-object makes `.get` raise; a field of the
wrong shape fails pydantic validation; either propagates as an
exception (`Except.error`), which the pipeline treats as AI failure. -/
def geminiInsightOfJson (j : Json) : Except String DocumentInsight :=
  match j with
  | .obj fields => do
    let summary ←
      match jlookup fields "summary" with
      | some (.str s) => Except.ok s
      | none => Except.ok "No summary available"
      | _ => Except.error "validation error"
    let key_skills ←
      match jlookup fields "key_skills" with
      | some (.arr xs) =>
        match decodeStrList xs with
        | some l => Except.ok l
        | none => Except.error "validation error"
      | none => Except.ok []
      | _ => Except.error "validation error"
    let experience_level ←
      match jlookup fields "experience_level" with
      | some (.str s) => Except.ok s
      | none => Except.ok "Not specified"
      | _ => Except.error "validation error"
    let education ←
      match jlookup fields "education" with
      | some (.str s) => Except.ok s
      | none => Except.ok "Not specified"
      | _ => Except.error "validation error"
    let highlights ←
      match jlookup fields "highlights" with
      | some (.arr xs) =>
        match decodeStrList xs with
        | some l => Except.ok l
        | none => Except.error "validation error"
      | none => Except.ok []
      | _ => Except.error "validation error"
    Except.ok ⟨summary, key_skills, experience_level, education,
               highlights, none, "ai"⟩
  | _ => Except.error "AttributeError: no attribute get"

/-- The function `analyze_document_with_gemini`, from the point the external call has
produced its result. `jsonParse` is the external `json.loads`
(`none` = `JSONDecodeError`); `responseText` is `response.text` when the
call succeeded with a response object (`none` = no response / no text /
the call itself raised, all of which surface as `Except.error` and feed
the pipeline's fallback). On decode failure the raw text becomes a
truncated summary — still `processing_method = "ai"`, no exception. -/
def analyze_document_with_gemini (jsonParse : String → Option Json)
    (clientAvailable : Bool) (responseText : Option String) :
    Except String DocumentInsight :=
  if !clientAvailable then Except.error "Gemini client not available"
  else
    match responseText with
    | some rt =>
      if rt.isEmpty then Except.error "No response from Gemini AI"
      else
        match jsonParse (geminiJsonPart rt) with
        | some j => geminiInsightOfJson j
        | none =>
          Except.ok ⟨truncatedSummary rt, [], "Not specified",
                     "Not specified", [], none, "ai"⟩
    | none => Except.error "No response from Gemini AI"

/-! ## PDF extraction (`extract_text_from_pdf`) -/

/-- The function `extract_text_from_pdf(pdf_bytes)`. `pdfParse` is the external
PyPDF2 reader, yielding the per-page `extract_text()` results or an
error for unparseable bytes. Pages are concatenated each followed by a
literal two-character `"\\n"` (the source writes `"\\n"`, an escaped
backslash, not a newline), then stripped; a parse failure is re-raised
as `HTTPException(400, ...)`, modelled by the prefixed error string. -/
def extract_text_from_pdf (pdfParse : List Nat → Except String (List String))
    (pdf_bytes : List Nat) : Except String String :=
  match pdfParse pdf_bytes with
  | .ok pages =>
    .ok (String.trim (pages.foldl (fun t p => t ++ p ++ "\\n") ""))
  | .error e => .error ("400: Failed to extract text from PDF: " ++ e)

/-! ## Upload pipeline (`upload_resume`) -/

/-- The 10 MiB upload limit (`max_size = 10 * 1024 * 1024`). -/
def max_size : Nat := 10 * 1024 * 1024

/-- The endpoint `upload_resume`: validate content type and size (400 before any
record exists), create the record with status `"processing"`, then try
AI analysis; on any AI exception extract text and run the fallback; on
success store the serialized insight with status `"completed"`; if the
recovery itself raised (extractor failure), keep the record with status
`"failed"` and the error message, still answering HTTP 200 with
`processing_status = "failed"`.

`ai` is `analyze_document_with_gemini` with its external collaborators
already applied (any `Except.error` models a raised exception);
`document_id` is the generated `uuid4`; `now` the row's
`upload_date`; the store is the list of committed rows, newest first. -/
def upload_resume (tok : String → List String) (stopWords : List String)
    (ai : List Nat → String → Except String DocumentInsight)
    (pdfParse : List Nat → Except String (List String))
    (document_id : String) (now : Nat)
    (content_type : String) (filename : String) (file_content : List Nat)
    (db : List DocumentRecord) :
    Except HTTPException UploadResponse × List DocumentRecord :=
  if content_type ≠ "application/pdf" then
    (.error ⟨400, "Only PDF files are allowed"⟩, db)
  else if max_size < file_content.length then
    (.error ⟨400, "File size too large. Maximum 10MB allowed."⟩, db)
  else
    let doc0 : DocumentRecord :=
      { id := document_id
        original_filename := filename
        stored_filename := document_id ++ "_" ++ filename
        upload_date := now
        file_size := file_content.length
        content_type := content_type
        insights := none
        processing_status := "processing"
        error_message := none }
    let analysis : Except String DocumentInsight :=
      match ai file_content filename with
      | .ok insights => .ok insights
      | .error _ =>
        match extract_text_from_pdf pdfParse file_content with
        | .ok text_content =>
          .ok (analyze_document_fallback tok stopWords text_content)
        | .error e => .error e
    match analysis with
    | .ok insights =>
      let doc1 := { doc0 with
        insights := some (insightToJson insights)
        processing_status := "completed" }
      (.ok ⟨"Document uploaded and processed successfully",
            document_id, filename, "completed"⟩,
       doc1 :: db)
    | .error e =>
      let doc1 := { doc0 with
        processing_status := "failed"
        error_message := some e }
      (.ok ⟨"Document upload successful, but processing failed",
            document_id, filename, "failed"⟩,
       doc1 :: db)

/-! ## Retrieval (`get_insights`) -/

/-- The response-formatting loop body of `get_insights`: decode the
stored insight JSON when present, degrading to `insights = None` when
the stored value does not decode back into the `DocumentInsight`
shape (the decode error is logged and swallowed). -/
def formatDocument (doc : DocumentRecord) : DocumentResponse :=
  { id := doc.id
    filename := doc.original_filename
    upload_date := doc.upload_date
    file_size := doc.file_size
    insights :=
      match doc.insights with
      | none => none
      | some j => insightFromJson j
    processing_status := doc.processing_status
    error_message := doc.error_message }

/-- The endpoint `get_insights(document_id, limit)`: one document by id (404 when
absent), or all documents ordered by `upload_date` descending,
truncated to `limit`, each formatted by the loop above. -/
def get_insights (document_id : Option String) (limit : Nat)
    (db : List DocumentRecord) :
    Except HTTPException (List DocumentResponse) :=
  match document_id with
  | some did =>
    match db.find? (fun d => d.id == did) with
    | none => .error ⟨404, "Document not found"⟩
    | some d => .ok [formatDocument d]
  | none =>
    .ok ((((sortDescBy (fun d => d.upload_date) db).take limit).map
          formatDocument))

/-! ## Helper lemmas: stable descending sort -/

theorem length_insertDescBy {α : Type} (key : α → Nat) (p : α) (l : List α) :
    (insertDescBy key p l).length = l.length + 1 := by
  induction l with
  | nil => rfl
  | cons q qs ih =>
    by_cases h : key q ≤ key p <;> simp [insertDescBy, h, ih]

theorem length_sortDescBy {α : Type} (key : α → Nat) (l : List α) :
    (sortDescBy key l).length = l.length := by
  induction l with
  | nil => rfl
  | cons p ps ih => simp [sortDescBy, length_insertDescBy, ih]

theorem perm_insertDescBy {α : Type} (key : α → Nat) (p : α) (l : List α) :
    (insertDescBy key p l).Perm (p :: l) := by
  induction l with
  | nil => simp [insertDescBy]
  | cons q qs ih =>
    by_cases h : key q ≤ key p
    · simp [insertDescBy, h]
    · simp only [insertDescBy, if_neg h]
      exact ((ih.cons q).trans (List.Perm.swap p q qs))

theorem perm_sortDescBy {α : Type} (key : α → Nat) (l : List α) :
    (sortDescBy key l).Perm l := by
  induction l with
  | nil => simp [sortDescBy]
  | cons p ps ih =>
    exact (perm_insertDescBy key p (sortDescBy key ps)).trans (ih.cons p)

theorem mem_sortDescBy {α : Type} (key : α → Nat) (l : List α) (x : α) :
    x ∈ sortDescBy key l ↔ x ∈ l :=
  (perm_sortDescBy key l).mem_iff

theorem pairwise_insertDescBy {α : Type} (key : α → Nat) (p : α) (l : List α)
    (h : l.Pairwise (fun a b => key b ≤ key a)) :
    (insertDescBy key p l).Pairwise (fun a b => key b ≤ key a) := by
  induction l with
  | nil => simp [insertDescBy]
  | cons q qs ih =>
    rcases List.pairwise_cons.mp h with ⟨hq, hqs⟩
    by_cases hle : key q ≤ key p
    · simp only [insertDescBy, if_pos hle]
      refine List.pairwise_cons.mpr ⟨?_, h⟩
      intro b hb
      rcases List.mem_cons.mp hb with rfl | hb
      · exact hle
      · exact le_trans (hq b hb) hle
    · simp only [insertDescBy, if_neg hle]
      refine List.pairwise_cons.mpr ⟨?_, ih hqs⟩
      intro b hb
      have hb' : b ∈ p :: qs := (perm_insertDescBy key p qs).mem_iff.mp hb
      rcases List.mem_cons.mp hb' with rfl | hb'
      · exact le_of_lt (Nat.lt_of_not_le hle)
      · exact hq b hb'

theorem pairwise_sortDescBy {α : Type} (key : α → Nat) (l : List α) :
    (sortDescBy key l).Pairwise (fun a b => key b ≤ key a) := by
  induction l with
  | nil => simp [sortDescBy]
  | cons p ps ih => exact pairwise_insertDescBy key p _ ih

/-- Stability of the insertion step: at any fixed key value `c`, the
elements passed over by the insertion all have key strictly above
`key p`, so the filtered sublist at `c` gains `p` at the front exactly
when `key p = c` and is otherwise untouched. -/
theorem filter_insertDescBy {α : Type} (key : α → Nat) (p : α) (l : List α)
    (c : Nat) :
    (insertDescBy key p l).filter (fun a => key a == c) =
      if key p = c then p :: l.filter (fun a => key a == c)
      else l.filter (fun a => key a == c) := by
  induction l with
  | nil =>
    by_cases h : key p = c <;>
      simp [insertDescBy, List.filter_cons, beq_iff_eq, h]
  | cons q qs ih =>
    by_cases hle : key q ≤ key p
    · rw [insertDescBy, if_pos hle]
      by_cases h : key p = c <;>
        simp [List.filter_cons, beq_iff_eq, h]
    · rw [insertDescBy, if_neg hle]
      rw [List.filter_cons, List.filter_cons, ih]
      by_cases h : key p = c
      · have hqne : key q ≠ c := fun hq => hle (le_of_eq (hq.trans h.symm))
        simp [beq_iff_eq, h, hqne]
      · simp [beq_iff_eq, h]

/-- Stability of the sort: filtering at any fixed key value commutes
with sorting, i.e. equal-key elements keep their original order. -/
theorem filter_sortDescBy {α : Type} (key : α → Nat) (l : List α) (c : Nat) :
    (sortDescBy key l).filter (fun a => key a == c) =
      l.filter (fun a => key a == c) := by
  induction l with
  | nil => rfl
  | cons p ps ih =>
    rw [sortDescBy, filter_insertDescBy, List.filter_cons]
    by_cases h : key p = c
    · simp [h, ih]
    · simp [h, ih]

/-! ## Helper lemmas: first-occurrence dedup and counter items -/

theorem mem_dedupFirstAux (seen l : List String) (x : String) :
    x ∈ dedupFirstAux seen l ↔ x ∈ l ∧ x ∉ seen := by
  induction l generalizing seen with
  | nil => simp [dedupFirstAux]
  | cons w ws ih =>
    by_cases h : w ∈ seen
    · rw [dedupFirstAux, if_pos h, ih]
      constructor
      · rintro ⟨hx, hns⟩; exact ⟨List.mem_cons_of_mem w hx, hns⟩
      · rintro ⟨hx, hns⟩
        rcases List.mem_cons.mp hx with rfl | hx
        · exact absurd h hns
        · exact ⟨hx, hns⟩
    · rw [dedupFirstAux, if_neg h]
      constructor
      · intro hx
        rcases List.mem_cons.mp hx with rfl | hx
        · exact ⟨List.mem_cons_self x ws, h⟩
        · rcases (ih (w :: seen)).mp hx with ⟨hm, hns⟩
          exact ⟨List.mem_cons_of_mem w hm,
                 fun hs => hns (List.mem_cons_of_mem w hs)⟩
      · rintro ⟨hx, hns⟩
        rcases List.mem_cons.mp hx with rfl | hx
        · exact List.mem_cons_self x _
        · by_cases hxw : x = w
          · subst hxw; exact List.mem_cons_self x _
          · exact List.mem_cons_of_mem w
              ((ih (w :: seen)).mpr ⟨hx, by
                intro hs
                rcases List.mem_cons.mp hs with h1 | h1
                · exact hxw h1
                · exact hns h1⟩)

theorem nodup_dedupFirstAux (seen l : List String) :
    (dedupFirstAux seen l).Nodup := by
  induction l generalizing seen with
  | nil => simp [dedupFirstAux]
  | cons w ws ih =>
    by_cases h : w ∈ seen
    · rw [dedupFirstAux, if_pos h]; exact ih seen
    · rw [dedupFirstAux, if_neg h]
      refine List.nodup_cons.mpr ⟨?_, ih (w :: seen)⟩
      intro hmem
      exact ((mem_dedupFirstAux (w :: seen) ws w).mp hmem).2
        (List.mem_cons_self w seen)

theorem mem_dedupFirst (l : List String) (x : String) :
    x ∈ dedupFirst l ↔ x ∈ l := by
  rw [dedupFirst, mem_dedupFirstAux]; simp

theorem nodup_dedupFirst (l : List String) : (dedupFirst l).Nodup :=
  nodup_dedupFirstAux [] l

theorem counterItems_map_fst (ws : List String) :
    (counterItems ws).map Prod.fst = dedupFirst ws := by
  rw [counterItems]
  induction dedupFirst ws with
  | nil => rfl
  | cons a l ih => simp only [List.map_cons, ih]

theorem nodup_counterItems_keys (ws : List String) :
    ((counterItems ws).map Prod.fst).Nodup := by
  rw [counterItems_map_fst]; exact nodup_dedupFirst ws

theorem mem_counterItems (ws : List String) (p : String × Nat) :
    p ∈ counterItems ws ↔ p.1 ∈ ws ∧ p.2 = ws.count p.1 := by
  constructor
  · intro hp
    rcases List.mem_map.mp hp with ⟨w, hw, hEq⟩
    rcases hEq with rfl
    exact ⟨(mem_dedupFirst ws w).mp hw, rfl⟩
  · rintro ⟨h1, h2⟩
    refine List.mem_map.mpr ⟨p.1, (mem_dedupFirst ws p.1).mpr h1, ?_⟩
    exact Prod.ext rfl h2.symm

theorem filter_take_append {α : Type} (P : α → Bool) (n : Nat) (l : List α) :
    l.filter P = (l.take n).filter P ++ (l.drop n).filter P := by
  conv_lhs => rw [← List.take_append_drop n l]
  rw [List.filter_append]

/-- C6: for every input text and positive `top_n`,
`get_word_frequency_fallback` lower-cases the text, tokenizes it,
discards every token that is not alphanumeric, or has length ≤ 2, or is
a stopword, counts the remaining tokens, and returns the `top_n`
highest-count tokens as a token-to-count mapping (distinct keys, counts
non-increasing, every dropped token's count no larger than any kept
one), ties broken by first-encountered order (the filtered sublist at
each count value is a prefix of the counter's insertion-ordered one);
when no token qualifies — in particular on empty text — it returns the
empty mapping. -/
theorem get_word_frequency_fallback_spec (tok : String → List String)
    (stopWords : List String) (text : String) (top_n : Nat)
    (hpos : 0 < top_n) :
    (∀ p ∈ get_word_frequency_fallback tok stopWords text top_n,
        p.1 ∈ tok text.toLower ∧ pyIsAlnum p.1 = true ∧ 2 < p.1.length ∧
        stopWords.contains p.1 = false ∧
        p.2 = (filteredWords tok stopWords text).count p.1) ∧
    ((get_word_frequency_fallback tok stopWords text top_n).map Prod.fst).Nodup ∧
    (get_word_frequency_fallback tok stopWords text top_n).length =
      min top_n (dedupFirst (filteredWords tok stopWords text)).length ∧
    (get_word_frequency_fallback tok stopWords text top_n).Pairwise
      (fun a b => b.2 ≤ a.2) ∧
    (∀ q ∈ counterItems (filteredWords tok stopWords text),
      q ∉ get_word_frequency_fallback tok stopWords text top_n →
      ∀ p ∈ get_word_frequency_fallback tok stopWords text top_n,
        q.2 ≤ p.2) ∧
    (∀ c : Nat, ∃ rest,
      (counterItems (filteredWords tok stopWords text)).filter
          (fun p => p.2 == c) =
        (get_word_frequency_fallback tok stopWords text top_n).filter
          (fun p => p.2 == c) ++ rest) ∧
    (filteredWords tok stopWords text = [] →
      get_word_frequency_fallback tok stopWords text top_n = []) ∧
    (tok "" = [] → text = "" →
      get_word_frequency_fallback tok stopWords text top_n = []) := by
  have hr : get_word_frequency_fallback tok stopWords text top_n =
      (sortDescBy (fun p => p.2)
        (counterItems (filteredWords tok stopWords text))).take top_n := rfl
  have hmem_sorted : ∀ p, p ∈ get_word_frequency_fallback tok stopWords text top_n →
      p ∈ counterItems (filteredWords tok stopWords text) := by
    intro p hp
    rw [hr] at hp
    exact (mem_sortDescBy _ _ p).mp (List.mem_of_mem_take hp)
  refine ⟨?_, ?_, ?_, ?_, ?_, ?_, ?_, ?_⟩
  · intro p hp
    have hpi := (mem_counterItems _ p).mp (hmem_sorted p hp)
    have hpf : p.1 ∈ filteredWords tok stopWords text := hpi.1
    rw [filteredWords, List.mem_filter] at hpf
    rcases hpf with ⟨htok, hcond⟩
    simp only [Bool.and_eq_true, Bool.not_eq_true', decide_eq_true_eq] at hcond
    exact ⟨htok, hcond.1.1, hcond.1.2, hcond.2, hpi.2⟩
  · rw [hr, List.map_take]
    apply List.Nodup.sublist (List.take_sublist _ _)
    have hperm := (perm_sortDescBy (fun p : String × Nat => p.2)
      (counterItems (filteredWords tok stopWords text))).map Prod.fst
    exact hperm.nodup_iff.mpr (nodup_counterItems_keys _)
  · rw [hr, List.length_take, length_sortDescBy, counterItems,
        List.length_map]
  · rw [hr]
    exact List.Pairwise.sublist (List.take_sublist _ _)
      (pairwise_sortDescBy _ _)
  · intro q hq hqr p hp
    have hsplit := (List.take_append_drop top_n
      (sortDescBy (fun p : String × Nat => p.2)
        (counterItems (filteredWords tok stopWords text)))).symm
    have hpw := pairwise_sortDescBy (fun p : String × Nat => p.2)
      (counterItems (filteredWords tok stopWords text))
    rw [hsplit] at hpw
    have hcross := (List.pairwise_append.mp hpw).2.2
    have hqs : q ∈ sortDescBy (fun p : String × Nat => p.2)
        (counterItems (filteredWords tok stopWords text)) :=
      (mem_sortDescBy _ _ q).mpr hq
    rw [hsplit] at hqs
    rcases List.mem_append.mp hqs with h1 | h1
    · exact absurd (hr ▸ h1) hqr
    · exact hcross p (hr ▸ hp) q h1
  · intro c
    refine ⟨(List.drop top_n (sortDescBy (fun p : String × Nat => p.2)
      (counterItems (filteredWords tok stopWords text)))).filter
        (fun p => p.2 == c), ?_⟩
    rw [hr,
      ← filter_sortDescBy (fun p : String × Nat => p.2)
        (counterItems (filteredWords tok stopWords text)) c]
    exact filter_take_append _ top_n _
  · intro h
    rw [hr, h]
    simp [counterItems, dedupFirst, dedupFirstAux, sortDescBy]
  · intro h0 htext
    have hfw : filteredWords tok stopWords text = [] := by
      rw [filteredWords, htext]
      have h00 : ("" : String).toLower = "" := by
        rw [String.toLower, String.map_eq]; rfl
      rw [h00, h0]
      rfl
    rw [hr, hfw]
    simp [counterItems, dedupFirst, dedupFirstAux, sortDescBy]

/-- Any entry of the frequency mapping is a qualifying filtered token
with its exact occurrence count. -/
theorem mem_get_word_frequency (tok : String → List String)
    (stopWords : List String) (text : String) (top_n : Nat)
    (p : String × Nat)
    (hp : p ∈ get_word_frequency_fallback tok stopWords text top_n) :
    p.1 ∈ filteredWords tok stopWords text ∧
    p.2 = (filteredWords tok stopWords text).count p.1 := by
  have hp' : p ∈ counterItems (filteredWords tok stopWords text) :=
    (mem_sortDescBy _ _ p).mp (List.mem_of_mem_take hp)
  exact (mem_counterItems _ p).mp hp'

/-- C10: the fallback analyzer's mapping has at most 5 entries, every
key is a lowercase purely-alphanumeric token longer than 2 characters
and not a stopword, every count is at least 1, counts are
non-increasing, and the highlights are the top-3 entries of the mapping
in rank order (hence at most 3). The lowercase guarantee rests on the
tokenizer not introducing uppercase characters into the lower-cased
text, stated as the hypothesis `htok`. -/
theorem analyze_document_fallback_invariants (tok : String → List String)
    (stopWords : List String) (text : String)
    (htok : ∀ w ∈ tok text.toLower, w.toLower = w) :
    ∃ wf, (analyze_document_fallback tok stopWords text).word_frequency
        = some wf ∧
      wf.length ≤ 5 ∧
      (∀ p ∈ wf, p.1.toLower = p.1 ∧ pyIsAlnum p.1 = true ∧
        2 < p.1.length ∧ stopWords.contains p.1 = false ∧ 1 ≤ p.2) ∧
      wf.Pairwise (fun a b => b.2 ≤ a.2) ∧
      (analyze_document_fallback tok stopWords text).highlights =
        (wf.take 3).map frequentTermHighlight ∧
      (analyze_document_fallback tok stopWords text).highlights.length
        ≤ 3 := by
  refine ⟨get_word_frequency_fallback tok stopWords text 5, rfl, ?_, ?_,
    ?_, ?_, ?_⟩
  · exact List.length_take_le 5 _
  · intro p hp
    rcases mem_get_word_frequency tok stopWords text 5 p hp with ⟨hmem, hcnt⟩
    rw [filteredWords, List.mem_filter] at hmem
    rcases hmem with ⟨htk, hcond⟩
    simp only [Bool.and_eq_true, Bool.not_eq_true', decide_eq_true_eq]
      at hcond
    refine ⟨htok p.1 htk, hcond.1.1, hcond.1.2, hcond.2, ?_⟩
    rw [hcnt]
    refine List.count_pos_iff.mpr ?_
    rw [filteredWords, List.mem_filter]
    refine ⟨htk, ?_⟩
    simp only [Bool.and_eq_true, Bool.not_eq_true', decide_eq_true_eq]
    exact hcond
  · exact List.Pairwise.sublist (List.take_sublist _ _)
      (pairwise_sortDescBy _ _)
  · show ((get_word_frequency_fallback tok stopWords text 5).map
        frequentTermHighlight).take 3 = _
    exact (List.map_take frequentTermHighlight _ 3).symm
  · exact List.length_take_le 3 _

/-- C7: the fallback analyzer emits an Insight whose
`processing_method` is `"fallback"`, whose summary is the fixed
advisory string, whose `key_skills` are the keys of the frequency
mapping, whose highlights are the top 3 entries each rendered as
`"Frequent term: <term> (<count> occurrences)"`, and whose
`word_frequency` is the full mapping. -/
theorem analyze_document_fallback_shape (tok : String → List String)
    (stopWords : List String) (text : String) :
    analyze_document_fallback tok stopWords text =
      { summary := "AI service temporarily unavailable. Document processed using fallback analysis."
        key_skills := (get_word_frequency_fallback tok stopWords text 5).map
          Prod.fst
        experience_level := "Unable to determine"
        education := "Unable to determine"
        highlights := ((get_word_frequency_fallback tok stopWords
          text 5).take 3).map frequentTermHighlight
        word_frequency := some (get_word_frequency_fallback tok stopWords
          text 5)
        processing_method := "fallback" } ∧
    ∀ w c, frequentTermHighlight (w, c) =
      "Frequent term: " ++ w ++ " (" ++ toString c ++ " occurrences)" := by
  constructor
  · rw [analyze_document_fallback]
    simp [List.map_take]
  · intro w c
    rfl

/-- C1: when AI analysis raises and the PDF bytes are successfully
text-extractable, upload catches the AI error, runs extraction and the
fallback analyzer, stores the fallback insight with status
`"completed"`, with `processing_method = "fallback"` and a non-null
`word_frequency`; the caller gets a non-error response reporting
`"completed"`, so the AI failure is never surfaced as a failure. -/
theorem upload_resume_ai_failure_recovers (tok : String → List String)
    (stopWords : List String)
    (ai : List Nat → String → Except String DocumentInsight)
    (pdfParse : List Nat → Except String (List String))
    (document_id : String) (now : Nat) (filename : String)
    (file_content : List Nat) (db : List DocumentRecord)
    (aiMsg : String) (text_content : String)
    (hai : ai file_content filename = Except.error aiMsg)
    (hext : extract_text_from_pdf pdfParse file_content =
      Except.ok text_content)
    (hsize : file_content.length ≤ max_size) :
    upload_resume tok stopWords ai pdfParse document_id now
        "application/pdf" filename file_content db =
      (Except.ok ⟨"Document uploaded and processed successfully",
          document_id, filename, "completed"⟩,
       { id := document_id
         original_filename := filename
         stored_filename := document_id ++ "_" ++ filename
         upload_date := now
         file_size := file_content.length
         content_type := "application/pdf"
         insights := some (insightToJson
           (analyze_document_fallback tok stopWords text_content))
         processing_status := "completed"
         error_message := none } :: db) ∧
    (analyze_document_fallback tok stopWords text_content).processing_method
      = "fallback" ∧
    (analyze_document_fallback tok stopWords
      text_content).word_frequency.isSome = true := by
  refine ⟨?_, rfl, rfl⟩
  rw [upload_resume, if_neg (fun h => h rfl), if_neg (Nat.not_lt.mpr hsize)]
  rw [hai, hext]

/-- C2: when AI analysis raises and PDF text extraction then also
fails, the document record transitions to `"failed"` with a non-null
error message, the record is kept in the store (appended, nothing
deleted), and the upload call still returns a non-error
(`Except.ok`) response carrying `processing_status = "failed"` instead
of signalling failure through the HTTP status code. -/
theorem upload_resume_extraction_failure_fails (tok : String → List String)
    (stopWords : List String)
    (ai : List Nat → String → Except String DocumentInsight)
    (pdfParse : List Nat → Except String (List String))
    (document_id : String) (now : Nat) (filename : String)
    (file_content : List Nat) (db : List DocumentRecord)
    (aiMsg : String) (pdfMsg : String)
    (hai : ai file_content filename = Except.error aiMsg)
    (hext : pdfParse file_content = Except.error pdfMsg)
    (hsize : file_content.length ≤ max_size) :
    ∃ doc,
      upload_resume tok stopWords ai pdfParse document_id now
          "application/pdf" filename file_content db =
        (Except.ok ⟨"Document upload successful, but processing failed",
            document_id, filename, "failed"⟩, doc :: db) ∧
      doc.processing_status = "failed" ∧
      doc.error_message.isSome = true ∧
      doc.id = document_id := by
  refine ⟨{ id := document_id
            original_filename := filename
            stored_filename := document_id ++ "_" ++ filename
            upload_date := now
            file_size := file_content.length
            content_type := "application/pdf"
            insights := none
            processing_status := "failed"
            error_message := some ("400: Failed to extract text from PDF: "
              ++ pdfMsg) }, ?_, rfl, rfl, rfl⟩
  rw [upload_resume, if_neg (fun h => h rfl), if_neg (Nat.not_lt.mpr hsize)]
  rw [hai, extract_text_from_pdf, hext]

/-- C3: whenever validation passes (so a record is created at all),
the record left in the store once upload returns has status exactly
`"completed"` or `"failed"` — never `"pending"` or `"processing"` —
with `insights` present iff completed and `error_message` present iff
failed; the response reports the same terminal status. -/
theorem upload_resume_terminal_invariant (tok : String → List String)
    (stopWords : List String)
    (ai : List Nat → String → Except String DocumentInsight)
    (pdfParse : List Nat → Except String (List String))
    (document_id : String) (now : Nat) (content_type : String)
    (filename : String) (file_content : List Nat)
    (db : List DocumentRecord)
    (hct : content_type = "application/pdf")
    (hsize : file_content.length ≤ max_size) :
    ∃ doc resp,
      upload_resume tok stopWords ai pdfParse document_id now
          content_type filename file_content db =
        (Except.ok resp, doc :: db) ∧
      (doc.processing_status = "completed" ∨
        doc.processing_status = "failed") ∧
      doc.processing_status ≠ "pending" ∧
      doc.processing_status ≠ "processing" ∧
      (doc.insights.isSome = true ↔ doc.processing_status = "completed") ∧
      (doc.error_message.isSome = true ↔
        doc.processing_status = "failed") ∧
      resp.processing_status = doc.processing_status := by
  subst hct
  rw [upload_resume, if_neg (fun h => h rfl), if_neg (Nat.not_lt.mpr hsize)]
  rcases hai : ai file_content filename with aiMsg | insights
  · rcases hext : extract_text_from_pdf pdfParse file_content with e | t
    · refine ⟨_, _, rfl, Or.inr rfl, by simp, by simp, ?_, ?_, rfl⟩
      · simp
      · simp
    · refine ⟨_, _, rfl, Or.inl rfl, by simp, by simp, ?_, ?_, rfl⟩
      · simp
      · simp
  · refine ⟨_, _, rfl, Or.inl rfl, by simp, by simp, ?_, ?_, rfl⟩
    · simp
    · simp

/-- C4: a request whose content type is not exactly
`"application/pdf"`, or whose file exceeds 10 MiB, is rejected with
HTTP 400 and the store is returned unchanged — no record is created. -/
theorem upload_resume_validation_rejected (tok : String → List String)
    (stopWords : List String)
    (ai : List Nat → String → Except String DocumentInsight)
    (pdfParse : List Nat → Except String (List String))
    (document_id : String) (now : Nat) (content_type : String)
    (filename : String) (file_content : List Nat)
    (db : List DocumentRecord)
    (h : content_type ≠ "application/pdf" ∨
      max_size < file_content.length) :
    ∃ e, upload_resume tok stopWords ai pdfParse document_id now
        content_type filename file_content db = (Except.error e, db) ∧
      e.status_code = 400 := by
  by_cases hct : content_type = "application/pdf"
  · subst hct
    rcases h with hct | hsz
    · exact absurd rfl hct
    · exact ⟨⟨400, "File size too large. Maximum 10MB allowed."⟩,
        by rw [upload_resume, if_neg (fun h => h rfl), if_pos hsz], rfl⟩
  · exact ⟨⟨400, "Only PDF files are allowed"⟩,
      by rw [upload_resume, if_pos hct], rfl⟩

theorem decodeStrList_map_str (l : List String) :
    decodeStrList (l.map Json.str) = some l := by
  induction l with
  | nil => rfl
  | cons s rest ih => simp [decodeStrList, ih]

theorem decodeFreq_map_num (m : List (String × Nat)) :
    decodeFreq (m.map (fun p => (p.1, Json.num (p.2 : Int)))) = some m := by
  induction m with
  | nil => rfl
  | cons p rest ih =>
    have hneg : ¬ ((p.2 : Int) < 0) := by
      exact Int.not_lt.mpr (Int.natCast_nonneg p.2)
    simp [decodeFreq, hneg, ih]

/-- C8: serializing an Insight for persistence and deserializing it on
retrieval restores it field for field — in particular for every insight
produced by the AI analyzer or the fallback analyzer. -/
theorem insight_serialization_roundtrip (i : DocumentInsight) :
    insightFromJson (insightToJson i) = some i := by
  rcases i with ⟨summary, key_skills, experience_level, education,
    highlights, word_frequency, processing_method⟩
  rcases word_frequency with _ | m <;>
    simp [insightToJson, insightFromJson, jlookup, List.find?,
      decodeStrList_map_str, decodeFreq_map_num]

/-- C5: when JSON decoding of a non-empty AI response fails, the AI
analyzer returns — without raising, hence without triggering the local
fallback analyzer — an insight whose summary is the raw response text
truncated to 500 characters with an ellipsis appended (the full text
when it is 500 characters or shorter), with empty `key_skills` and
`highlights` and `processing_method = "ai"`. -/
theorem gemini_decode_failure_truncates (jsonParse : String → Option Json)
    (rt : String) (hne : rt ≠ "")
    (hfail : jsonParse (geminiJsonPart rt) = none) :
    analyze_document_with_gemini jsonParse true (some rt) =
      Except.ok
        { summary := if 500 < rt.length then rt.take 500 ++ "..." else rt
          key_skills := []
          experience_level := "Not specified"
          education := "Not specified"
          highlights := []
          word_frequency := none
          processing_method := "ai" } := by
  have hemp : rt.isEmpty = false := by
    rcases h : rt.isEmpty with _ | _
    · rfl
    · exact absurd ((String.isEmpty_iff rt).mp h) hne
  rw [analyze_document_with_gemini]
  simp only [Bool.not_true, if_neg (by simp : ¬ (false = true))]
  rw [hemp]
  simp only [Bool.false_eq_true, if_false, hfail]
  rfl

/-- C9: the listing path of `get_insights` never raises on a stored
record whose persisted insights do not decode back into the Insight
shape: it returns `min limit |db|` formatted documents drawn from the
store (all of them, in particular, when `limit` covers the store), and
the formatting of any record — preserving its id, status and error
message — yields `insights = none` exactly on such undecodable records
while decodable ones are returned intact. -/
theorem get_insights_tolerates_undecodable (limit : Nat)
    (db : List DocumentRecord) :
    ∃ listed : List DocumentRecord, get_insights none limit db =
        Except.ok (listed.map formatDocument) ∧
      listed.length = min limit db.length ∧
      (∀ d ∈ listed, d ∈ db) ∧
      (db.length ≤ limit → listed.Perm db) ∧
      (∀ d : DocumentRecord,
        (formatDocument d).id = d.id ∧
        (formatDocument d).processing_status = d.processing_status ∧
        (formatDocument d).error_message = d.error_message ∧
        (∀ j, d.insights = some j → insightFromJson j = none →
          (formatDocument d).insights = none) ∧
        (∀ j i, d.insights = some j → insightFromJson j = some i →
          (formatDocument d).insights = some i)) := by
  refine ⟨(sortDescBy (fun d : DocumentRecord => d.upload_date) db).take
    limit, rfl, ?_, ?_, ?_, ?_⟩
  · rw [List.length_take, length_sortDescBy]
  · intro d hd
    exact (mem_sortDescBy _ _ d).mp (List.mem_of_mem_take hd)
  · intro hlim
    have hlen : (sortDescBy (fun d => d.upload_date) db).length ≤ limit := by
      rw [length_sortDescBy]; exact hlim
    rw [List.take_of_length_le hlen]
    exact perm_sortDescBy _ _
  · intro d
    refine ⟨rfl, rfl, rfl, ?_, ?_⟩
    · intro j hj hbad
      show (match d.insights with
            | none => none
            | some j => insightFromJson j) = none
      rw [hj]
      exact hbad
    · intro j i hj hgood
      show (match d.insights with
            | none => none
            | some j => insightFromJson j) = some i
      rw [hj]
      exact hgood

/-! ## Concrete collaborator instances, used to exercise the theorems
on closed inputs -/

/-- A whitespace tokenizer standing in for `word_tokenize` on concrete
inputs. -/
def wsTokenize (s : String) : List String :=
  (s.splitOn " ").filter (fun w => !w.isEmpty)

/-- A tokenizer producing no tokens (as on empty text). -/
def emptyTokenize : String → List String := fun _ => []

/-- A small stopword list for concrete inputs. -/
def sampleStopWords : List String := ["the", "and", "for", "with"]

/-- An AI analyzer whose external call always raises. -/
def aiAlwaysFails : List Nat → String → Except String DocumentInsight :=
  fun _ _ => Except.error "AI down"

/-- A PDF parser that extracts one page of text from any bytes. -/
def pdfParseOnePage : List Nat → Except String (List String) :=
  fun _ => Except.ok ["skills skills python"]

/-- A PDF parser that fails on any bytes (corrupt PDF). -/
def pdfParseFails : List Nat → Except String (List String) :=
  fun _ => Except.error "corrupt"

/-- A `json.loads` that always raises `JSONDecodeError`. -/
def jsonParseNone : String → Option Json := fun _ => none

/-- Witness for C1: with a failing AI analyzer and extractable bytes,
upload completes via the fallback path. -/
theorem upload_resume_ai_failure_recovers_witness :
    aiAlwaysFails [1, 2] "cv.pdf" = Except.error "AI down" ∧
    extract_text_from_pdf pdfParseOnePage [1, 2] =
      Except.ok (String.trim ("" ++ "skills skills python" ++ "\\n")) ∧
    ([1, 2] : List Nat).length ≤ max_size ∧
    (upload_resume wsTokenize sampleStopWords aiAlwaysFails pdfParseOnePage
        "id1" 7 "application/pdf" "cv.pdf" [1, 2] [] =
      (Except.ok ⟨"Document uploaded and processed successfully", "id1",
          "cv.pdf", "completed"⟩,
       [{ id := "id1"
          original_filename := "cv.pdf"
          stored_filename := "id1" ++ "_" ++ "cv.pdf"
          upload_date := 7
          file_size := ([1, 2] : List Nat).length
          content_type := "application/pdf"
          insights := some (insightToJson (analyze_document_fallback
            wsTokenize sampleStopWords
            (String.trim ("" ++ "skills skills python" ++ "\\n"))))
          processing_status := "completed"
          error_message := none }]) ∧
    (analyze_document_fallback wsTokenize sampleStopWords
      (String.trim ("" ++ "skills skills python" ++ "\\n"))).processing_method
      = "fallback" ∧
    (analyze_document_fallback wsTokenize sampleStopWords
      (String.trim ("" ++ "skills skills python" ++ "\\n"))).word_frequency.isSome
      = true) :=
  ⟨rfl, rfl, by decide,
   upload_resume_ai_failure_recovers wsTokenize sampleStopWords
     aiAlwaysFails pdfParseOnePage "id1" 7 "cv.pdf" [1, 2] [] "AI down"
     (String.trim ("" ++ "skills skills python" ++ "\\n")) rfl rfl
     (by decide)⟩

/-- Witness for C2: with a failing AI analyzer and unparseable bytes,
the record is kept as failed and the response is still non-error. -/
theorem upload_resume_extraction_failure_fails_witness :
    aiAlwaysFails [3] "cv.pdf" = Except.error "AI down" ∧
    pdfParseFails [3] = Except.error "corrupt" ∧
    ([3] : List Nat).length ≤ max_size ∧
    (∃ doc,
      upload_resume wsTokenize sampleStopWords aiAlwaysFails pdfParseFails
          "id2" 9 "application/pdf" "cv.pdf" [3] [] =
        (Except.ok ⟨"Document upload successful, but processing failed",
            "id2", "cv.pdf", "failed"⟩, doc :: []) ∧
      doc.processing_status = "failed" ∧
      doc.error_message.isSome = true ∧
      doc.id = "id2") :=
  ⟨rfl, rfl, by decide,
   upload_resume_extraction_failure_fails wsTokenize sampleStopWords
     aiAlwaysFails pdfParseFails "id2" 9 "cv.pdf" [3] [] "AI down" "corrupt"
     rfl rfl (by decide)⟩

/-- Witness for C3: a validated upload ends in a terminal status with
the insights/error fields coupled to it. -/
theorem upload_resume_terminal_invariant_witness :
    ("application/pdf" : String) = "application/pdf" ∧
    ([4, 5] : List Nat).length ≤ max_size ∧
    (∃ doc resp,
      upload_resume wsTokenize sampleStopWords aiAlwaysFails pdfParseFails
          "id3" 11 "application/pdf" "cv.pdf" [4, 5] [] =
        (Except.ok resp, doc :: []) ∧
      (doc.processing_status = "completed" ∨
        doc.processing_status = "failed") ∧
      doc.processing_status ≠ "pending" ∧
      doc.processing_status ≠ "processing" ∧
      (doc.insights.isSome = true ↔ doc.processing_status = "completed") ∧
      (doc.error_message.isSome = true ↔
        doc.processing_status = "failed") ∧
      resp.processing_status = doc.processing_status) :=
  ⟨rfl, by decide,
   upload_resume_terminal_invariant wsTokenize sampleStopWords aiAlwaysFails
     pdfParseFails "id3" 11 "application/pdf" "cv.pdf" [4, 5] [] rfl
     (by decide)⟩

/-- Witness for C4: a non-PDF content type is rejected with a 400 and
an unchanged store. -/
theorem upload_resume_validation_rejected_witness :
    (("text/plain" : String) ≠ "application/pdf" ∨
      max_size < ([6] : List Nat).length) ∧
    (∃ e, upload_resume wsTokenize sampleStopWords aiAlwaysFails
        pdfParseOnePage "id4" 13 "text/plain" "cv.txt" [6] [] =
        (Except.error e, []) ∧
      e.status_code = 400) :=
  ⟨Or.inl (by decide),
   upload_resume_validation_rejected wsTokenize sampleStopWords aiAlwaysFails
     pdfParseOnePage "id4" 13 "text/plain" "cv.txt" [6] []
     (Or.inl (by decide))⟩

/-- Witness for C5: an undecodable non-empty AI response becomes a
truncated-summary insight with `processing_method = "ai"`. -/
theorem gemini_decode_failure_truncates_witness :
    ("hello" : String) ≠ "" ∧
    jsonParseNone (geminiJsonPart "hello") = none ∧
    analyze_document_with_gemini jsonParseNone true (some "hello") =
      Except.ok
        { summary := if 500 < ("hello" : String).length
            then ("hello" : String).take 500 ++ "..." else "hello"
          key_skills := []
          experience_level := "Not specified"
          education := "Not specified"
          highlights := []
          word_frequency := none
          processing_method := "ai" } :=
  ⟨by decide, rfl,
   gemini_decode_failure_truncates jsonParseNone "hello" (by decide) rfl⟩

/-- Witness for C6: the frequency-analysis characterization at a
concrete tokenizer, stopword list, text and positive `top_n`. -/
theorem get_word_frequency_fallback_spec_witness :
    (0 : Nat) < 5 ∧
    ∀ p ∈ get_word_frequency_fallback wsTokenize sampleStopWords
        "The cat and the big cat" 5,
      p.1 ∈ wsTokenize ("The cat and the big cat" : String).toLower ∧
      pyIsAlnum p.1 = true ∧ 2 < p.1.length ∧
      sampleStopWords.contains p.1 = false ∧
      p.2 = (filteredWords wsTokenize sampleStopWords
        "The cat and the big cat").count p.1 :=
  ⟨by decide,
   (get_word_frequency_fallback_spec wsTokenize sampleStopWords
     "The cat and the big cat" 5 (by decide)).1⟩

/-- Witness for C10: the fallback-analyzer invariants at a concrete
tokenizer whose output is trivially lowercase. -/
theorem analyze_document_fallback_invariants_witness :
    (∀ w ∈ emptyTokenize ("Any Text" : String).toLower, w.toLower = w) ∧
    (∃ wf,
      (analyze_document_fallback emptyTokenize sampleStopWords
        "Any Text").word_frequency = some wf ∧
      wf.length ≤ 5 ∧
      (∀ p ∈ wf, p.1.toLower = p.1 ∧ pyIsAlnum p.1 = true ∧
        2 < p.1.length ∧ sampleStopWords.contains p.1 = false ∧
        1 ≤ p.2) ∧
      wf.Pairwise (fun a b => b.2 ≤ a.2) ∧
      (analyze_document_fallback emptyTokenize sampleStopWords
        "Any Text").highlights = (wf.take 3).map frequentTermHighlight ∧
      (analyze_document_fallback emptyTokenize sampleStopWords
        "Any Text").highlights.length ≤ 3) :=
  ⟨fun w hw => absurd hw (List.not_mem_nil w),
   analyze_document_fallback_invariants emptyTokenize sampleStopWords
     "Any Text" (fun w hw => absurd hw (List.not_mem_nil w))⟩

end DocInsight
